import Mathlib

/-!
Verification of the 1PPS generator (src/main.c) against its design
specification.

The development shallowly embeds the two parts of the program:

* the build-time parameter validator, a chain of preprocessor
  directives (src/main.c lines 105-147) evaluated with exact integer
  arithmetic, embedded here as decidable Boolean checks over Nat;
* the runtime pulse engine: the interrupt handler pps_out acting on the
  16-bit shared counter (modular arithmetic on Nat with explicit
  percent 65536 where the machine type wraps), the main-loop poll, and
  the initialization routine pps_init acting on an abstract device
  state whose hardware primitives are specified at the interface
  boundary.
-/

/-! ## Build-time configured constants (src/main.c lines 91-96) -/

/-- Constant F_OSC, the external oscillator speed (line 91). -/
def F_OSC : Nat := 19440000

/-- Constant PS_FUSE, the fuse clock divider setting (line 92). -/
def PS_FUSE : Nat := 8

/-- Constant PS_TMR, the TMR0 clock divider setting (line 93). -/
def PS_TMR : Nat := 8

/-- Constant TMR_TOP, the timer reload value (line 94). -/
def TMR_TOP : Nat := 243

/-- Constant ISR_CNT, the number of handler invocations per pulse (line 95). -/
def ISR_CNT : Nat := 1250

/-- Constant PPS_DC, the on-duration of the pulse in handler invocations
(line 96). -/
def PPS_DC : Nat := 10

/-! ## The prescaler selection chain (src/main.c lines 113-125) -/

/-- Hardware prescaler settings TMR0_PS1x .. TMR0_PS1024x declared by the
timer driver header (outside src/), used here only as opaque selectable
tokens. -/
inductive TmrPrescalerSel : Type where
  | PS1x : TmrPrescalerSel
  | PS8x : TmrPrescalerSel
  | PS64x : TmrPrescalerSel
  | PS256x : TmrPrescalerSel
  | PS1024x : TmrPrescalerSel
deriving DecidableEq

/-- Outcome of preprocessing the conditional chain of lines 113-125:
either a branch succeeds and defines PPS_PS, or preprocessing stops with
a diagnostic. -/
inductive PSSelectResult : Type where
  | ok : TmrPrescalerSel → PSSelectResult
  | malformedElif : PSSelectResult
  | errorInvalidPs : PSSelectResult
deriving DecidableEq

/-- Embeds the directive chain of src/main.c lines 113-125 as the C
preprocessor evaluates it.  The four guarded branches test PS_TMR
against 1, 8, 64 and 256.  The next branch, line 121, is a bare elif
directive carrying no expression (the intended test against 1024 is
missing); when every previous condition is false the preprocessor must
evaluate that directive and fails with a missing-expression diagnostic,
so neither the 1024x branch body (line 122) nor the else branch with
its invalid-settings error directive (lines 123-124) is ever reached. -/
def ps_tmr_select (p : Nat) : PSSelectResult :=
  if p = 1 then PSSelectResult.ok TmrPrescalerSel.PS1x
  else if p = 8 then PSSelectResult.ok TmrPrescalerSel.PS8x
  else if p = 64 then PSSelectResult.ok TmrPrescalerSel.PS64x
  else if p = 256 then PSSelectResult.ok TmrPrescalerSel.PS256x
  else PSSelectResult.malformedElif

/-- True when the prescaler selection chain fails the build (any outcome
other than a successful branch). -/
def psTmrFails (p : Nat) : Bool :=
  match ps_tmr_select p with
  | PSSelectResult.ok _ => false
  | _ => true

/-! ## The remaining validator checks (src/main.c lines 129-146) -/

/-- Embeds line 129: the factorization check directive fires (build
error) exactly when F_OSC differs from the product
PS_FUSE * PS_TMR * TMR_TOP * ISR_CNT, computed exactly. -/
def factorizationError (f d p r n : Nat) : Bool :=
  decide (f ≠ d * p * r * n)

/-- Embeds line 134: the reload-range directive fires exactly when
TMR_TOP exceeds 255.  No lower bound is tested. -/
def tmrTopError (r : Nat) : Bool :=
  decide (255 < r)

/-- Embeds line 139: the repeat-count directive fires exactly when
ISR_CNT exceeds 65535.  No lower bound is tested. -/
def isrCntError (n : Nat) : Bool :=
  decide (65535 < n)

/-- The identifier PPS_CN appearing in the directive on line 144.  It is
defined nowhere in the translation unit (the duty macro is spelled
PPS_DC), so the preprocessor replaces it by 0 in the controlling
expression (C17 6.10.1p4). -/
def PPS_CN : Nat := 0

/-- Embeds line 144: the duty-range directive tests PPS_CN > ISR_CNT.
Because PPS_CN evaluates to 0 the condition is 0 > ISR_CNT, so the
directive can never fire; the actual duty value plays no role, hence
the unused second argument. -/
def dutyError (n _dc : Nat) : Bool :=
  decide (n < PPS_CN)

/-- The whole build-time validator (src/main.c lines 113-146): the build
is rejected when any of the five checks fires. -/
def buildRejects (f d p r n dc : Nat) : Bool :=
  psTmrFails p || factorizationError f d p r n ||
    tmrTopError r || isrCntError n || dutyError n dc

/-! ## Claims about the validator -/

/-- Claim C1: the factorization check rejects a configuration exactly
when the identity F_OSC = PS_FUSE * PS_TMR * TMR_TOP * ISR_CNT fails
under exact integer arithmetic, and raises no error when it holds; in
particular replacing the configured reload 243 by 244 triggers the
error while the configured constants do not. -/
theorem factorization_check_iff :
    (∀ f d p r n : Nat, factorizationError f d p r n = true ↔ f ≠ d * p * r * n) ∧
    factorizationError 19440000 8 8 244 1250 = true ∧
    factorizationError 19440000 8 8 243 1250 = false := by
  refine ⟨fun f d p r n => ?_, by decide, by decide⟩
  simp [factorizationError]

/-- Claim C5 (code bug): the duty-range check can never fire, because
the directive on line 144 tests the undefined identifier PPS_CN (a typo
for PPS_DC), which the preprocessor evaluates as 0.  In particular a
configuration with duty count 2500, far above ISR_CNT = 1250, is
accepted by the full validator, contradicting the documented intent
stated in the comment on line 143. -/
theorem duty_range_check_never_fires :
    buildRejects 19440000 8 8 243 1250 2500 = false ∧
    (∀ n dc : Nat, dutyError n dc = false) := by
  refine ⟨by decide, fun n dc => ?_⟩
  simp [dutyError, PPS_CN]

/-- Claim C6 (code bug): the prescaler chain succeeds for 1, 8, 64 and
256, but for 1024 (documented as supported on line 93) the bare elif on
line 121 aborts preprocessing with a malformed-directive failure
instead of selecting the 1024x setting, and the else branch carrying
the intended invalid-prescaler error diagnostic is unreachable for
every input. -/
theorem ps_tmr_chain_broken_at_1024 :
    ps_tmr_select 1 = PSSelectResult.ok TmrPrescalerSel.PS1x ∧
    ps_tmr_select 8 = PSSelectResult.ok TmrPrescalerSel.PS8x ∧
    ps_tmr_select 64 = PSSelectResult.ok TmrPrescalerSel.PS64x ∧
    ps_tmr_select 256 = PSSelectResult.ok TmrPrescalerSel.PS256x ∧
    ps_tmr_select 1024 = PSSelectResult.malformedElif ∧
    (∀ p : Nat, ps_tmr_select p ≠ PSSelectResult.errorInvalidPs) := by
  refine ⟨by decide, by decide, by decide, by decide, by decide, fun p => ?_⟩
  unfold ps_tmr_select
  repeat' split
  all_goals simp

/-- Claim C7 counterexample: a reload value of 31 lies outside the range
[32, 255] claimed to be rejected, yet the full validator accepts the
(otherwise exactly factorizing) configuration 2480000 = 8 * 8 * 31 * 1250. -/
theorem tmr_top_31_accepted :
    31 < 32 ∧ buildRejects 2480000 8 8 31 1250 10 = false := by
  decide

/-- Claim C7 (amended): the range checks test upper bounds only: the
reload directive fires exactly for values above 255 and the
repeat-count directive exactly for values above 65535; values below the
lower bounds 32 and 1 pass these checks. -/
theorem range_checks_upper_bound_only :
    ∀ r n : Nat,
      (tmrTopError r = true ↔ 255 < r) ∧
      (isrCntError n = true ↔ 65535 < n) ∧
      tmrTopError 31 = false ∧ isrCntError 0 = false := by
  intro r n
  refine ⟨?_, ?_, by decide, by decide⟩
  · simp [tmrTopError]
  · simp [isrCntError]

/-! ## The runtime pulse engine (src/main.c lines 150-200)

The shared counter cnt has C type uint16_t, so every arithmetic result
stored into it is taken modulo 65536; the embedding keeps the counter a
Nat and applies the modulus explicitly where the machine type wraps. -/

/-- Sixteen-bit decrement: the effect of the statement cnt -= 1 on a
uint16_t (line 155), wrapping at zero. -/
def dec16 (c : Nat) : Nat := (c + 65535) % 65536

/-- Sixteen-bit increment: the effect of cnt += 1 on a uint16_t
(line 239 of the up-counter variant). -/
def inc16 (c : Nat) : Nat := (c + 1) % 65536

/-- Counter update performed by one invocation of the handler pps_out
(lines 153-161): decrement; when the result is zero, reload with
ISR_CNT (truncated to the uint16_t store).  The repeat count is the
parameter N, instantiated at the configured ISR_CNT = 1250. -/
def pps_out_cnt (N c : Nat) : Nat :=
  if dec16 c = 0 then N % 65536 else dec16 c

/-- True exactly when the invocation of pps_out entered with counter
value c executes the strobe IO_SET (line 159), driving the pin high. -/
def pps_out_strobe (c : Nat) : Bool :=
  decide (dec16 c = 0)

/-- Recursor for runDown, structurally recursive on the invocation
count. -/
def runDownAux (N : Nat) : Nat → Nat → Nat
  | 0, c => c
  | k + 1, c => runDownAux N k (pps_out_cnt N c)

/-- Counter value after k successive invocations of pps_out starting
from counter value c. -/
def runDown (N c k : Nat) : Nat := runDownAux N k c

/-- Recursor for edgesDown, structurally recursive on the invocation
count. -/
def edgesDownAux (N : Nat) : Nat → Nat → Nat
  | 0, _ => 0
  | k + 1, c => (if pps_out_strobe c then 1 else 0) + edgesDownAux N k (pps_out_cnt N c)

/-- Number of invocations among k successive invocations of pps_out
(starting from counter value c) that execute the strobe, i.e. the
number of rising edges produced. -/
def edgesDown (N c k : Nat) : Nat := edgesDownAux N k c

/-- Counter update of the up-counter variant handler (lines 237-245):
increment; on reaching the repeat count, reset to zero. -/
def pps_out_up_cnt (N c : Nat) : Nat :=
  if inc16 c = N then 0 else inc16 c

/-- True exactly when the up-counter variant invocation entered with
counter value c executes its strobe (line 243). -/
def pps_out_up_strobe (N c : Nat) : Bool :=
  decide (inc16 c = N)

/-- Recursor for runUp, structurally recursive on the invocation
count. -/
def runUpAux (N : Nat) : Nat → Nat → Nat
  | 0, c => c
  | k + 1, c => runUpAux N k (pps_out_up_cnt N c)

/-- Counter value after k invocations of the up-counter variant from
counter value c. -/
def runUp (N c k : Nat) : Nat := runUpAux N k c

/-- One polling step of the main loop (line 196): the pin is driven low
exactly when the polled counter value equals ISR_CNT - PPS_DC. -/
def main_poll_clears (N dc c : Nat) : Bool :=
  decide (c = N - dc)

/-- Number of pin-low writes performed when one main-loop polling step
runs after each of the first m handler invocations following a rising
edge (so the counter starts the window at N). -/
def fallsDown (N dc : Nat) : Nat → Nat
  | 0 => 0
  | m + 1 =>
    fallsDown N dc m +
      (if main_poll_clears N dc (runDown N N (m + 1)) then 1 else 0)

/-! ## Device state and initialization (src/main.c lines 164-187) -/

/-- Abstract device state visible to pps_init: the shared counter, the
output pin level and direction, the timer peripheral programming, the
installed-handler flag and the global-interrupt flag. -/
structure Device : Type where
  cnt : Nat
  pinLevel : Bool
  pinIsOutput : Bool
  tmrPrescaler : Option Nat
  tmrReload : Option Nat
  handlerInstalled : Bool
  intEnabled : Bool
deriving DecidableEq

/-- Modelled from the spec: GPIO collaborator primitive IO_CLR (declared
in the missing header gpio.h) drives the output pin low. -/
def IO_CLR (d : Device) : Device := { d with pinLevel := false }

/-- Modelled from the spec: GPIO collaborator primitive IO_OUT (missing
header gpio.h) configures the pin as an output. -/
def IO_OUT (d : Device) : Device := { d with pinIsOutput := true }

/-- Modelled from the spec: timer collaborator primitive tmr0_init
(missing header tmr0oc.h) programs the timer prescaler. -/
def tmr0_init (ps : Nat) (d : Device) : Device := { d with tmrPrescaler := some ps }

/-- Modelled from the spec: timer collaborator primitive tmr0a_setpr
(missing header tmr0oc.h) programs the output-compare reload value. -/
def tmr0a_setpr (v : Nat) (d : Device) : Device := { d with tmrReload := some v }

/-- Modelled from the spec: timer collaborator primitive tmr0a_act
(missing header tmr0oc.h) installs the user handler on the timer
interrupt. -/
def tmr0a_act (d : Device) : Device := { d with handlerInstalled := true }

/-- Embeds pps_init (src/main.c lines 164-187) over the abstract device
state: seed the counter with ISR_CNT, drive the pin low and make it an
output, mask the prescaler argument with TMR0_PSMASK (the mask constant
lives in the missing header, so it is a parameter here), program the
timer, set the reload value TMR_TOP and install pps_out.  The routine
never touches the global-interrupt flag; ei() is called by main only
after pps_init returns (line 193). -/
def pps_init (mask ps : Nat) (d : Device) : Device :=
  let d1 : Device := { d with cnt := ISR_CNT }
  let d2 : Device := IO_OUT (IO_CLR d1)
  let ps2 : Nat := Nat.land ps mask
  tmr0a_act (tmr0a_setpr TMR_TOP (tmr0_init ps2 d2))

/-! ## Helper lemmas about the counter dynamics -/

theorem runDown_zero (N c : Nat) : runDown N c 0 = c := rfl

theorem runDown_succ (N c k : Nat) :
    runDown N c (k + 1) = runDown N (pps_out_cnt N c) k := by
  simp only [runDown, runDownAux]

theorem edgesDown_zero (N c : Nat) : edgesDown N c 0 = 0 := rfl

theorem edgesDown_succ (N c k : Nat) :
    edgesDown N c (k + 1) =
      (if pps_out_strobe c then 1 else 0) + edgesDown N (pps_out_cnt N c) k := by
  simp only [edgesDown, edgesDownAux]

theorem runUp_succ (N c k : Nat) :
    runUp N c (k + 1) = runUp N (pps_out_up_cnt N c) k := by
  simp only [runUp, runUpAux]

theorem runDown_add (N a b : Nat) :
    ∀ c, runDown N c (a + b) = runDown N (runDown N c a) b := by
  induction a with
  | zero => intro c; rw [Nat.zero_add]; rfl
  | succ a ih =>
    intro c
    rw [Nat.succ_add, runDown_succ, ih, runDown_succ]

theorem edgesDown_add (N a b : Nat) :
    ∀ c, edgesDown N c (a + b) =
      edgesDown N c a + edgesDown N (runDown N c a) b := by
  induction a with
  | zero => intro c; rw [Nat.zero_add, edgesDown_zero, runDown_zero, Nat.zero_add]
  | succ a ih =>
    intro c
    rw [Nat.succ_add, edgesDown_succ, ih, edgesDown_succ, runDown_succ,
      Nat.add_assoc]

theorem runUp_add (N a b : Nat) :
    ∀ c, runUp N c (a + b) = runUp N (runUp N c a) b := by
  induction a with
  | zero => intro c; rw [Nat.zero_add]; rfl
  | succ a ih =>
    intro c
    rw [Nat.succ_add, runUp_succ, ih, runUp_succ]

theorem dec16_eq (c : Nat) (h1 : 1 ≤ c) (h2 : c ≤ 65535) : dec16 c = c - 1 := by
  unfold dec16
  have h3 : c + 65535 = (c - 1) + 1 * 65536 := by omega
  rw [h3, Nat.add_mul_mod_self_right]
  exact Nat.mod_eq_of_lt (by omega)

theorem pps_out_cnt_of_ge_two (N c : Nat) (h1 : 2 ≤ c) (h2 : c ≤ 65535) :
    pps_out_cnt N c = c - 1 ∧ pps_out_strobe c = false := by
  have hd : dec16 c = c - 1 := dec16_eq c (by omega) h2
  constructor
  · unfold pps_out_cnt
    rw [hd, if_neg (by omega)]
  · unfold pps_out_strobe
    rw [hd]
    exact decide_eq_false (by omega)

theorem pps_out_cnt_one (N : Nat) (h : N ≤ 65535) :
    pps_out_cnt N 1 = N ∧ pps_out_strobe 1 = true := by
  constructor
  · unfold pps_out_cnt
    rw [if_pos (by decide)]
    exact Nat.mod_eq_of_lt (by omega)
  · decide

theorem pps_out_strobe_iff (c : Nat) (h1 : 1 ≤ c) (h2 : c ≤ 65535) :
    pps_out_strobe c = true ↔ c = 1 := by
  unfold pps_out_strobe
  rw [dec16_eq c h1 h2, decide_eq_true_eq]
  omega

theorem runDown_dec (N : Nat) :
    ∀ k c, k < c → c ≤ 65535 → runDown N c k = c - k := by
  intro k
  induction k with
  | zero => intro c _ _; rfl
  | succ k ih =>
    intro c hk hc
    obtain ⟨hstep, _⟩ := pps_out_cnt_of_ge_two N c (by omega) hc
    rw [runDown_succ, hstep, ih (c - 1) (by omega) (by omega)]
    omega

theorem edgesDown_dec (N : Nat) :
    ∀ k c, k < c → c ≤ 65535 → edgesDown N c k = 0 := by
  intro k
  induction k with
  | zero => intro c _ _; rfl
  | succ k ih =>
    intro c hk hc
    obtain ⟨hstep, hstrobe⟩ := pps_out_cnt_of_ge_two N c (by omega) hc
    rw [edgesDown_succ, hstrobe, hstep, ih (c - 1) (by omega) (by omega)]
    simp

theorem mod_succ_aux (k N : Nat) (h : 1 ≤ N) :
    (k + 1) % N = if k % N + 1 = N then 0 else k % N + 1 := by
  rcases Nat.eq_or_lt_of_le h with h1 | h1
  · simp [← h1, Nat.mod_one]
  · have h2 : 1 % N = 1 := Nat.mod_eq_of_lt h1
    have h3 : k % N < N := Nat.mod_lt k (by omega)
    rw [Nat.add_mod, h2]
    split
    · next heq => rw [heq, Nat.mod_self]
    · next hne => exact Nat.mod_eq_of_lt (by omega)

theorem runDown_mod (N : Nat) (h1 : 1 ≤ N) (h2 : N ≤ 65535) :
    ∀ k, runDown N N k = N - k % N := by
  intro k
  induction k with
  | zero => simp [runDown, runDownAux]
  | succ k ih =>
    have hlast : runDown N N (k + 1) = pps_out_cnt N (runDown N N k) := by
      rw [runDown_add N k 1 N]
      simp only [runDown, runDownAux]
    have h3 : k % N < N := Nat.mod_lt k (by omega)
    rw [hlast, ih, mod_succ_aux k N h1]
    by_cases hc : k % N + 1 = N
    · have hone : N - k % N = 1 := by omega
      rw [hone, (pps_out_cnt_one N h2).1, if_pos hc]
      omega
    · obtain ⟨hstep, _⟩ := pps_out_cnt_of_ge_two N (N - k % N) (by omega) (by omega)
      rw [hstep, if_neg hc]
      omega

theorem runUp_mod (N : Nat) (h1 : 1 ≤ N) (h2 : N ≤ 65535) :
    ∀ k, runUp N 0 k = k % N := by
  intro k
  induction k with
  | zero => simp [runUp, runUpAux]
  | succ k ih =>
    have hlast : runUp N 0 (k + 1) = pps_out_up_cnt N (runUp N 0 k) := by
      rw [runUp_add N k 1 0]
      simp only [runUp, runUpAux]
    have h3 : k % N < N := Nat.mod_lt k (by omega)
    have hinc : inc16 (k % N) = k % N + 1 := by
      unfold inc16
      exact Nat.mod_eq_of_lt (by omega)
    rw [hlast, ih, mod_succ_aux k N h1]
    unfold pps_out_up_cnt
    rw [hinc]

/-- Equation lemma for fallsDown at a successor argument. -/
theorem fallsDown_succ (N dc m : Nat) :
    fallsDown N dc (m + 1) =
      fallsDown N dc m +
        (if main_poll_clears N dc (runDown N N (m + 1)) then 1 else 0) := by
  simp only [fallsDown]

/-! ## Claims about the pulse engine -/

/-- Claim C2: from every counter phase reachable after initialization
(the invariant range 1..N of the down-counter, N being the configured
ISR_CNT), invoking the boundary handler pps_out exactly N times
produces exactly one rising edge (exactly one strobe of the pin) and
returns the counter to the value it held before the N invocations. -/
theorem pps_out_one_pulse_per_cycle (N c : Nat)
    (h1 : 1 ≤ c) (h2 : c ≤ N) (h3 : N ≤ 65535) :
    edgesDown N c N = 1 ∧ runDown N c N = c := by
  have hsplit : N = (c - 1) + (1 + (N - c)) := by omega
  have hrun1 : runDown N c (c - 1) = 1 := by
    rw [runDown_dec N (c - 1) c (by omega) (by omega)]
    omega
  have hone := pps_out_cnt_one N h3
  have hrun2 : runDown N 1 (1 + (N - c)) = c := by
    rw [Nat.add_comm 1 (N - c), runDown_succ, hone.1,
      runDown_dec N (N - c) N (by omega) h3]
    omega
  constructor
  · have h0 : edgesDown N c N = edgesDown N c ((c - 1) + (1 + (N - c))) :=
      congrArg (edgesDown N c) hsplit
    rw [h0, edgesDown_add, hrun1, edgesDown_dec N (c - 1) c (by omega) (by omega),
      Nat.add_comm 1 (N - c), edgesDown_succ, hone.2, hone.1,
      edgesDown_dec N (N - c) N (by omega) h3]
    simp
  · have h0 : runDown N c N = runDown N c ((c - 1) + (1 + (N - c))) :=
      congrArg (runDown N c) hsplit
    rw [h0, runDown_add, hrun1, hrun2]

theorem pps_out_one_pulse_per_cycle_witness :
    (1 ≤ 2 ∧ 2 ≤ 3 ∧ 3 ≤ 65535) ∧ (edgesDown 3 2 3 = 1 ∧ runDown 3 2 3 = 2) :=
  ⟨by decide, pps_out_one_pulse_per_cycle 3 2 (by decide) (by decide) (by decide)⟩

/-- Claim C3: immediately after a rising edge the counter holds N; when
one main-loop polling step runs after each of the next dc handler
invocations (dc the configured duty count), exactly one of those polls
drives the pin low, and it is the poll directly following the dc-th
invocation, i.e. the falling edge lags the dc-th invocation by less
than one further invocation. -/
theorem duty_one_falling_edge (N dc : Nat)
    (h1 : 1 ≤ dc) (h2 : dc < N) (h3 : N ≤ 65535) :
    fallsDown N dc dc = 1 ∧
    (∀ k, k ≤ dc → (main_poll_clears N dc (runDown N N k) = true ↔ k = dc)) := by
  have hpoll : ∀ k, k ≤ dc →
      (main_poll_clears N dc (runDown N N k) = true ↔ k = dc) := by
    intro k hk
    have hr : runDown N N k = N - k := by
      rw [runDown_mod N (by omega) h3 k, Nat.mod_eq_of_lt (by omega)]
    rw [hr]
    unfold main_poll_clears
    rw [decide_eq_true_eq]
    omega
  refine ⟨?_, hpoll⟩
  have hzero : ∀ m, m < dc → fallsDown N dc m = 0 := by
    intro m
    induction m with
    | zero => intro _; rfl
    | succ m ih =>
      intro hm
      have hfalse : main_poll_clears N dc (runDown N N (m + 1)) = false := by
        cases hb : main_poll_clears N dc (runDown N N (m + 1)) with
        | false => rfl
        | true =>
          have := (hpoll (m + 1) (by omega)).mp hb
          omega
      rw [fallsDown_succ, ih (by omega), hfalse]
      simp
  obtain ⟨m0, rfl⟩ : ∃ m0, dc = m0 + 1 := ⟨dc - 1, by omega⟩
  have htrue : main_poll_clears N (m0 + 1) (runDown N N (m0 + 1)) = true :=
    (hpoll (m0 + 1) (by omega)).mpr rfl
  rw [fallsDown_succ, hzero m0 (by omega), htrue]
  simp

theorem duty_one_falling_edge_witness :
    (1 ≤ 2 ∧ 2 < 3 ∧ 3 ≤ 65535) ∧ fallsDown 3 2 2 = 1 :=
  ⟨by decide, (duty_one_falling_edge 3 2 (by decide) (by decide) (by decide)).1⟩

/-- Claim C4: with the configured constants (F_OSC 19440000, PS_FUSE 8,
PS_TMR 8, TMR_TOP 243, ISR_CNT 1250, PPS_DC 10) the validator accepts
the build, the handler strobes the pin high exactly on every 1250th
invocation, and the main-loop poll drives the pin low exactly on the
polls whose invocation index is 10 past a multiple of 1250, i.e. 10
invocations after each rising edge. -/
theorem configured_scenario_ok :
    buildRejects F_OSC PS_FUSE PS_TMR TMR_TOP ISR_CNT PPS_DC = false ∧
    (∀ k : Nat,
      (pps_out_strobe (runDown ISR_CNT ISR_CNT k) = true ↔ (k + 1) % ISR_CNT = 0) ∧
      (main_poll_clears ISR_CNT PPS_DC (runDown ISR_CNT ISR_CNT k) = true ↔
        k % ISR_CNT = PPS_DC)) := by
  refine ⟨by decide, fun k => ?_⟩
  have hd : runDown 1250 1250 k = 1250 - k % 1250 :=
    runDown_mod 1250 (by omega) (by omega) k
  have h3 : k % 1250 < 1250 := Nat.mod_lt k (by omega)
  constructor
  · show pps_out_strobe (runDown 1250 1250 k) = true ↔ (k + 1) % 1250 = 0
    rw [hd, pps_out_strobe_iff (1250 - k % 1250) (by omega) (by omega)]
    omega
  · show main_poll_clears 1250 10 (runDown 1250 1250 k) = true ↔ k % 1250 = 10
    rw [hd]
    unfold main_poll_clears
    rw [decide_eq_true_eq]
    omega

/-- Claim C8: after pps_init(ps) returns, the shared counter equals its
starting value ISR_CNT, the output pin is driven low and configured as
an output, the timer peripheral is programmed with the masked prescaler
and the reload value TMR_TOP, the boundary handler is installed, and
the global-interrupt flag is exactly what it was before the call, so
pps_init itself has not enabled interrupts. -/
theorem pps_init_postconditions (mask ps : Nat) (d : Device) :
    (pps_init mask ps d).cnt = ISR_CNT ∧
    (pps_init mask ps d).pinLevel = false ∧
    (pps_init mask ps d).pinIsOutput = true ∧
    (pps_init mask ps d).tmrPrescaler = some (Nat.land ps mask) ∧
    (pps_init mask ps d).tmrReload = some TMR_TOP ∧
    (pps_init mask ps d).handlerInstalled = true ∧
    (pps_init mask ps d).intEnabled = d.intEnabled :=
  ⟨rfl, rfl, rfl, rfl, rfl, rfl, rfl⟩

/-- Claim C9: the down-counter handler (seeded at N, decrement, reload
on zero) and the up-counter handler of the second variant (seeded at 0,
increment, reset on reaching N) strobe the pin on exactly the same
invocations when driven by the same invocation sequence from their
respective initial values, namely on every N-th invocation. -/
theorem down_up_counter_equiv (N k : Nat) (h1 : 1 ≤ N) (h2 : N ≤ 65535) :
    pps_out_strobe (runDown N N k) = pps_out_up_strobe N (runUp N 0 k) ∧
    (pps_out_strobe (runDown N N k) = true ↔ (k + 1) % N = 0) := by
  have hd := runDown_mod N h1 h2 k
  have hu := runUp_mod N h1 h2 k
  have h3 : k % N < N := Nat.mod_lt k (by omega)
  have hdown : pps_out_strobe (runDown N N k) = true ↔ k % N = N - 1 := by
    rw [hd, pps_out_strobe_iff (N - k % N) (by omega) (by omega)]
    omega
  have hup : pps_out_up_strobe N (runUp N 0 k) = true ↔ k % N = N - 1 := by
    rw [hu]
    unfold pps_out_up_strobe
    have hinc : inc16 (k % N) = k % N + 1 := by
      unfold inc16
      exact Nat.mod_eq_of_lt (by omega)
    rw [hinc, decide_eq_true_eq]
    omega
  have hmod : (k + 1) % N = 0 ↔ k % N = N - 1 := by
    rw [mod_succ_aux k N h1]
    split <;> omega
  refine ⟨?_, hdown.trans hmod.symm⟩
  cases hb1 : pps_out_strobe (runDown N N k) <;>
    cases hb2 : pps_out_up_strobe N (runUp N 0 k) <;> simp_all

theorem down_up_counter_equiv_witness :
    (1 ≤ 3 ∧ 3 ≤ 65535) ∧
      (pps_out_strobe (runDown 3 3 5) = pps_out_up_strobe 3 (runUp 3 0 5) ∧
        (pps_out_strobe (runDown 3 3 5) = true ↔ (5 + 1) % 3 = 0)) :=
  ⟨by decide, down_up_counter_equiv 3 5 (by decide) (by decide)⟩

/-- Claim C10: the down-counter stays in the range 1..N outside the
handler body: the value seeded at initialization lies in the range, one
invocation of pps_out entered with a counter in the range returns a
counter in the range (so the 16-bit decrement never wraps below zero),
and the strobe branch executes exactly on invocations entered with
counter value 1. -/
theorem cnt_invariant_preserved (N c mask ps : Nat) (d : Device)
    (h1 : 1 ≤ c) (h2 : c ≤ N) (h3 : N ≤ 65535) :
    (1 ≤ pps_out_cnt N c ∧ pps_out_cnt N c ≤ N) ∧
    (pps_out_strobe c = true ↔ c = 1) ∧
    (1 ≤ ISR_CNT ∧ (pps_init mask ps d).cnt = ISR_CNT) := by
  refine ⟨?_, pps_out_strobe_iff c h1 (by omega), by decide, rfl⟩
  by_cases hc : c = 1
  · subst hc
    rw [(pps_out_cnt_one N h3).1]
    omega
  · rw [(pps_out_cnt_of_ge_two N c (by omega) (by omega)).1]
    omega

theorem cnt_invariant_preserved_witness :
    (1 ≤ 2 ∧ 2 ≤ 3 ∧ 3 ≤ 65535) ∧
      ((1 ≤ pps_out_cnt 3 2 ∧ pps_out_cnt 3 2 ≤ 3) ∧
        (pps_out_strobe 2 = true ↔ 2 = 1) ∧
        (1 ≤ ISR_CNT ∧
          (pps_init 7 2 (Device.mk 0 true false none none false false)).cnt = ISR_CNT)) :=
  ⟨by decide,
    cnt_invariant_preserved 3 2 7 2 (Device.mk 0 true false none none false false)
      (by decide) (by decide) (by decide)⟩
